import Mathlib

/-!
Verification of the malachite domain-reputation engine.

This file gives a shallow embedding of the core of the `malachite`
repository (`malachite/util.py`, `malachite/__init__.py`,
`malachite/database.py`): the pattern engine, the DNS resolution-chain
walker, the clean-domain cache invalidation, and the rule scan.

Python strings are modelled as `List Char`.  The Python standard-library
collaborators are modelled as follows:

* `ipaddress.ip_address` / `ipaddress.ip_network` are modelled for IPv4
  (dotted quad, strict CIDR); IPv6 is handled analogously by the library
  and none of the properties below depend on it.
* `re.search` on a free-form compiled regex (class `Regex`) is kept
  abstract: the matcher is a parameter `rs : RegexSearch` of the
  definitions, since no property below depends on regex internals.
* `fnmatch.translate` + `re.search` for class `Glob` are modelled
  concretely (`globTranslate`, `tokMatch`, `globSearch`): the translated
  pattern is end-anchored (`\Z`) and applied with an unanchored,
  case-insensitive `search`.
* the DNS resolver is a parameter `R : Resolver`; a lookup either fails
  (any exception) or returns a list of records.  The `while queue:` loop
  of `_check_domain` is embedded with explicit fuel, since with an
  adversarial resolver the Python loop itself need not terminate; every
  theorem below holds for every fuel value.
-/

set_option linter.unusedVariables false

deriving instance DecidableEq for Except

namespace Malachite

/-- Python strings, modelled as lists of characters. -/
abbrev Str := List Char

/-- Python `str.startswith`. -/
def startswith (s pre : Str) : Bool := pre.isPrefixOf s

/-- Python `str.endswith`, via reversal. -/
def endswith (s suf : Str) : Bool := suf.reverse.isPrefixOf s.reverse

/-- Python `str.removeprefix`: drop `pre` if it is a prefix, else unchanged. -/
def removePre (s pre : Str) : Str :=
  if startswith s pre then s.drop pre.length else s

/-- Python `str.removesuffix`: drop `suf` if it is a suffix, else unchanged. -/
def removeSuf (s suf : Str) : Str :=
  (removePre s.reverse suf.reverse).reverse

/-- Python `str.rstrip(".")`: remove all trailing dots. -/
def rstripDots (s : Str) : Str :=
  (s.reverse.dropWhile (· == '.')).reverse

/-- Split a list on a separator character, like Python `str.split(sep)`:
`splitSep '.' "a.b" = ["a", "b"]`, `splitSep '.' "" = [""]`. -/
def splitSep (sep : Char) : Str → List Str
  | [] => [[]]
  | c :: rest =>
    if c == sep then [] :: splitSep sep rest
    else
      match splitSep sep rest with
      | g :: gs => (c :: g) :: gs
      | [] => [[c]]

/-- Digit string to number (the string is validated by the caller). -/
def digitsToNat (s : Str) : Nat :=
  s.foldl (fun acc c => acc * 10 + (c.toNat - 48)) 0

/-- One octet of a dotted quad, per `ipaddress._parse_octet`: non-empty,
at most 3 characters, decimal digits only, no leading zero, value ≤ 255. -/
def parseOctet (s : Str) : Option Nat :=
  if s.isEmpty then none
  else if ¬ s.all (·.isDigit) then none
  else if s.length > 3 then none
  else if s.length > 1 ∧ s.head? = some '0' then none
  else if digitsToNat s ≤ 255 then some (digitsToNat s) else none

/-- `ipaddress.ip_address` on a string (IPv4 dotted quad): exactly four
octets joined by dots; result is the 32-bit value. -/
def parseIPv4 (s : Str) : Option Nat :=
  match splitSep '.' s with
  | [a, b, c, d] =>
    match parseOctet a, parseOctet b, parseOctet c, parseOctet d with
    | some x, some y, some z, some w => some (((x * 256 + y) * 256 + z) * 256 + w)
    | _, _, _, _ => none
  | _ => none

/-- Prefix length for a CIDR, per `ipaddress._prefix_from_prefix_string`:
decimal digits only (leading zeros allowed by `int()`), value ≤ 32. -/
def parsePrefixLen (s : Str) : Option Nat :=
  if s.isEmpty then none
  else if ¬ s.all (·.isDigit) then none
  else
    let n := digitsToNat s
    if n ≤ 32 then some n else none

/-- An IPv4 network: base address value and prefix length. -/
structure IpNet where
  base : Nat
  prefixLen : Nat
  deriving DecidableEq, Repr

/-- `ipaddress.ip_network` on a string (IPv4, default `strict=True`):
`"a.b.c.d"` (host route) or `"a.b.c.d/p"`; host bits must be zero. -/
def parseNetV4 (s : Str) : Option IpNet :=
  match splitSep '/' s with
  | [addr] => (parseIPv4 addr).map (fun a => ⟨a, 32⟩)
  | [addr, plen] =>
    match parseIPv4 addr, parsePrefixLen plen with
    | some a, some p =>
      if a % 2 ^ (32 - p) = 0 then some ⟨a, p⟩ else none
    | _, _ => none
  | _ => none

/-- `ip in network` for IPv4 (`IPv4Network.__contains__`): the address's
network part equals the network's base. -/
def netContains (net : IpNet) (a : Nat) : Bool :=
  a / 2 ^ (32 - net.prefixLen) == net.base / 2 ^ (32 - net.prefixLen)

/-- A raised Python exception, as a value. -/
inductive PyError
  | valueError
  deriving DecidableEq, Repr

/-- `ipaddress.ip_address` with its raising behaviour: `ValueError` on a
string that is not an IP address. -/
def ip_address (s : Str) : Except PyError Nat :=
  match parseIPv4 s with
  | some a => .ok a
  | none => .error .valueError

/-! ## `fnmatch.translate` and glob matching

`Glob.__init__` compiles `re.compile(fnmatch.translate(pattern), re.I)`;
`Glob.__eq__` applies `.search(value)`.  The translated regex is
end-anchored (`\Z`) but `search` scans start positions, so the compiled
glob matches iff some suffix of the candidate matches the translated
pattern in full.  `globTranslate` models the translation (`*`, `?`,
`[...]` classes with `!` negation and `a-b` ranges, unclosed `[` taken
literally), `tokMatch` the anchored match, `globSearch` the search. -/

/-- Scan for an (unskipped) closing `]`; returns the content before it and
the remainder after it. -/
def scanClose : Str → Option (Str × Str)
  | [] => none
  | c :: t =>
    if c = ']' then some ([], t)
    else
      match scanClose t with
      | none => none
      | some (s, r) => some (c :: s, r)

/-- The characters right after `[` that never close the class, per
`fnmatch.translate`: a `!` right after `[`, and a `]` right after `[`
or `[!`.  Returns `(skipped, remainder)`. -/
def classPre : Str → Str × Str
  | '!' :: ']' :: t => (['!', ']'], t)
  | '!' :: t => (['!'], t)
  | ']' :: t => ([']'], t)
  | t => ([], t)

/-- Split a character class after `[`: the class content (including the
skipped leading `!`/`]`) and the rest of the pattern after the closing
`]`; `none` if the class is unclosed. -/
def classSplit (l : Str) : Option (Str × Str) :=
  (scanClose (classPre l).2).map (fun p => ((classPre l).1 ++ p.1, p.2))

theorem scanClose_len : ∀ {l s r : Str}, scanClose l = some (s, r) → r.length < l.length := by
  intro l
  induction l with
  | nil => intro s r h; simp [scanClose] at h
  | cons c t ih =>
    intro s r h
    rw [scanClose] at h
    split at h
    · cases h; simp
    · split at h
      · cases h
      · next s' r' heq =>
        cases h
        have := ih heq
        simp
        omega

theorem classPre_len (l : Str) : (classPre l).2.length ≤ l.length := by
  unfold classPre
  split <;> simp_arith

theorem classSplit_len : ∀ {l s r : Str}, classSplit l = some (s, r) → r.length < l.length := by
  intro l s r h
  rw [classSplit, Option.map_eq_some'] at h
  obtain ⟨p, hp, he⟩ := h
  have h1 := scanClose_len (s := p.1) (r := p.2) (by simpa using hp)
  have h2 := classPre_len l
  cases he
  omega

/-- Items of a character class: singles and `a-b` ranges (a `-` in first
or last position is a literal, as in `fnmatch.translate`). -/
def classItems : Str → List (Char × Char)
  | [] => []
  | a :: '-' :: b :: rest => (a, b) :: classItems rest
  | a :: rest => (a, a) :: classItems rest

/-- Case-insensitive membership of a character in a class (models the
compiled class under `re.I`). -/
def classMem (c : Char) (items : List (Char × Char)) : Bool :=
  items.any fun p =>
    decide ((p.1 ≤ c ∧ c ≤ p.2) ∨ (p.1 ≤ c.toLower ∧ c.toLower ≤ p.2) ∨
      (p.1 ≤ c.toUpper ∧ c.toUpper ≤ p.2))

/-- Case-insensitive character equality (a literal under `re.I`). -/
def lowEq (a c : Char) : Bool := a.toLower == c.toLower

/-- One token of the regex `fnmatch.translate` produces: `.*?` for `*`,
`.` for `?`, a character class, or an escaped literal. -/
inductive GlobTok
  | star
  | anyOne
  | lit (c : Char)
  | cls (neg : Bool) (items : List (Char × Char))
  deriving DecidableEq, Repr

/-- `fnmatch.translate` at the token level, with a step counter bounding
the recursion (each step consumes at least one pattern character, so
`s.length` steps always suffice; the counter keeps the recursion
structural). -/
def globTranslateGo : Nat → Str → List GlobTok
  | _, [] => []
  | 0, _ => []
  | n + 1, '*' :: p => .star :: globTranslateGo n p
  | n + 1, '?' :: p => .anyOne :: globTranslateGo n p
  | n + 1, '[' :: p =>
    (match classSplit p with
     | none => .lit '[' :: globTranslateGo n p
     | some (stuff, rest) =>
       match stuff with
       | '!' :: body => .cls true (classItems body) :: globTranslateGo n rest
       | body => .cls false (classItems body) :: globTranslateGo n rest)
  | n + 1, c :: p => .lit c :: globTranslateGo n p

/-- `fnmatch.translate`:  `*` → `star`, `?` → `anyOne`, `[...]` → a
class (leading `!` negates; an unclosed `[` is the literal `[`), anything
else an escaped literal. -/
def globTranslate (s : Str) : List GlobTok := globTranslateGo s.length s

/-- Full (anchored) match of a translated glob against a string, under
`re.I`: this is the compiled `(?s:...)\Z` regex applied at one position
and required to reach the end of the string.  `star` (`.*?`) matches by
trying every split point. -/
def tokMatch : List GlobTok → Str → Bool
  | [], s => s.isEmpty
  | .star :: p, s => (List.range (s.length + 1)).any fun i => tokMatch p (s.drop i)
  | .anyOne :: _, [] => false
  | .anyOne :: p, _ :: t => tokMatch p t
  | .lit _ :: _, [] => false
  | .lit a :: p, c :: t => lowEq a c && tokMatch p t
  | .cls _ _ :: _, [] => false
  | .cls neg items :: p, c :: t => (classMem c items != neg) && tokMatch p t

/-- `re.search` of the end-anchored translated glob: try every start
position; a match must then run to the end of the candidate. -/
def globSearch (raw cand : Str) : Bool :=
  (List.range (cand.length + 1)).any fun i => tokMatch (globTranslate raw) (cand.drop i)

/-! ## Pattern engine (`malachite/util.py`) -/

/-- `util.PatternType`. -/
inductive PatternType
  | Domain
  | Glob
  | Regex
  | Cidr
  | IpAddr
  deriving DecidableEq, Repr

/-- A compiled pattern.  Each variant keeps the `raw` operator text; the
`Cidr`/`IpAddr` variants also keep the compiled network/address built by
their constructors (`ipaddress.ip_network` / `ipaddress.ip_address`). -/
inductive Pattern
  | domain (raw : Str)
  | glob (raw : Str)
  | regex (raw : Str)
  | cidr (raw : Str) (net : IpNet)
  | ipaddr (raw : Str) (addr : Nat)
  deriving DecidableEq, Repr

/-- The matcher for a free-form `Regex` pattern: the behaviour of
`re.compile(raw, re.I).search(value)`.  Kept abstract; any total matcher
is admissible. -/
abbrev RegexSearch := Str → Str → Bool

/-- `Pattern.__eq__` of each variant, with Python's raising semantics made
explicit.  `Domain` compares after `rstrip(".")` of both sides (the
pattern side is stripped once in `Domain.__init__`); `Glob`/`Regex` use
case-insensitive unanchored `search`; `Cidr.__eq__` catches the
`ValueError` of `ip_address(value)` and returns
`super().__eq__(value)` = `NotImplemented`, which the `==` protocol turns
into `False`; `IpAddr.__eq__` catches it and returns `False`. -/
def matchesE (rs : RegexSearch) (p : Pattern) (value : Str) : Except PyError Bool :=
  match p with
  | .domain raw => .ok (rstripDots raw == rstripDots value)
  | .glob raw => .ok (globSearch raw value)
  | .regex raw => .ok (rs raw value)
  | .cidr _ net =>
    match ip_address value with
    | .ok a => .ok (netContains net a)
    | .error _ => .ok false
  | .ipaddr _ addr =>
    match ip_address value with
    | .ok a => .ok (addr == a)
    | .error _ => .ok false

/-- ASCII single quote, the `_delim` of `Domain`. -/
def squote : Char := Char.ofNat 39

/-- `Pattern.__str__`: `self._delim + self.raw + self._delim`, with
`_delim` `'` for Domain, `%` for Glob, `/` for Regex and the empty string
for Cidr and IpAddr. -/
def render : Pattern → Str
  | .domain raw => squote :: raw ++ [squote]
  | .glob raw => '%' :: raw ++ ['%']
  | .regex raw => '/' :: raw ++ ['/']
  | .cidr raw _ => raw
  | .ipaddr raw _ => raw

/-- `util.make_pattern`: construct a pattern from stored text plus a
stored type tag.  `Cidr`/`IpAddr` construction can raise `ValueError`. -/
def make_pattern (pat : Str) (ty : PatternType) : Except PyError Pattern :=
  match ty with
  | .Domain => .ok (.domain pat)
  | .Glob => .ok (.glob pat)
  | .Regex => .ok (.regex pat)
  | .Cidr =>
    match parseNetV4 pat with
    | some net => .ok (.cidr pat net)
    | none => .error .valueError
  | .IpAddr =>
    match parseIPv4 pat with
    | some a => .ok (.ipaddr pat a)
    | none => .error .valueError

/-- `util.parse_pattern`: classify operator text.  `%...%` → Glob over
the inner text; `/.../` → Regex over the inner text; otherwise text
containing `/` → Cidr, re-raising `ValueError("invalid pattern")` if the
CIDR parse fails; otherwise an IP literal, falling back to Domain if the
IP parse fails. -/
def parse_pattern (pat : Str) : Except PyError Pattern :=
  if startswith pat ['%'] && endswith pat ['%'] then
    .ok (.glob (removeSuf (removePre pat ['%']) ['%']))
  else if startswith pat ['/'] && endswith pat ['/'] then
    .ok (.regex (removeSuf (removePre pat ['/']) ['/']))
  else if pat.contains '/' then
    match parseNetV4 pat with
    | some net => .ok (.cidr pat net)
    | none => .error .valueError
  else
    match parseIPv4 pat with
    | some a => .ok (.ipaddr pat a)
    | none => .ok (.domain pat)

/-- `util.MxblEntry`: a rule with a compiled `Pattern`. -/
structure MxblEntry where
  id : Nat
  pattern : Pattern
  reason : Str
  active : Bool
  added : Nat
  added_by : Str
  hits : Nat
  last_hit : Option Nat
  deriving DecidableEq, Repr

/-- `database.MxblEntry`: the row type returned by
`database.MxblTable.list_all`, with the pattern kept as a plain string
plus a type tag.  It is a distinct class from `util.MxblEntry`. -/
structure DbMxblEntry where
  id : Nat
  pattern : Str
  pattern_type : PatternType
  reason : Str
  active : Bool
  added : Nat
  added_by : Str
  hits : Nat
  last_hit : Option Nat
  deriving DecidableEq, Repr

/-- An element of the list `util.match_patterns` scans.  The Python
signature says `list[MxblEntry | Pattern]` (the `util` classes), but on
the no-override path of `_check_domain` the list actually holds
`database.MxblEntry` rows, which match neither `isinstance` check. -/
inductive ScanItem
  | entry (e : MxblEntry)
  | pat (p : Pattern)
  | dbEntry (e : DbMxblEntry)
  deriving DecidableEq, Repr

/-- `util.match_patterns`: first match wins in list order; a `ValueError`
raised by a comparison is caught and that rule skipped; items that are
neither `util.MxblEntry` nor `util.Pattern` fall through both
`isinstance` branches and are skipped silently. -/
def match_patterns (rs : RegexSearch) : List ScanItem → Str → Option ScanItem
  | [], _ => none
  | item :: rest, search =>
    match item with
    | .entry e =>
      match matchesE rs e.pattern search with
      | .ok true => some (.entry e)
      | .ok false => match_patterns rs rest search
      | .error _ => match_patterns rs rest search
    | .pat p =>
      match matchesE rs p search with
      | .ok true => some (.pat p)
      | .ok false => match_patterns rs rest search
      | .error _ => match_patterns rs rest search
    | .dbEntry e => match_patterns rs rest search

/-- A concrete `RegexSearch` used to instantiate witnesses: the behaviour
of `re.search` with `re.I` on a regex consisting only of literal
characters, i.e. case-insensitive substring containment. -/
def simpleSearch : RegexSearch := fun pat s =>
  (List.range (s.length + 1)).any fun i =>
    (pat.map Char.toLower).isPrefixOf ((s.map Char.toLower).drop i)

/-! ## Resolution-chain walker (`MalachiteServer._check_domain`) -/

/-- DNS query types used by the walker. -/
inductive QType
  | MX
  | A
  | AAAA
  deriving DecidableEq, Repr

/-- A record of a DNS answer: `rec.rdtype` dispatch distinguishes MX
records (with an exchange hostname), A/AAAA records (with an address
text), and anything else (skipped by the walker's `continue`). -/
inductive DnsRecord
  | mx (exchange : Str)
  | a (address : Str)
  | aaaa (address : Str)
  | other
  deriving DecidableEq, Repr

/-- A queue item of the walker: a name to resolve and the query type. -/
abbrev QItem := Str × QType

/-- The Resolver Port: a lookup either raises (timeout, NXDOMAIN,
transport error — all collapsed into `.error`) or returns records. -/
abbrev Resolver := Str → QType → Except Unit (List DnsRecord)

/-- The inner `for rec in resp:` loop of `_check_domain`, processing one
answer's records in order.  Returns the queue items pushed onto the front
of the queue (later records' pushes end up in front of earlier ones,
exactly as repeated `queue.insert(0, ...)` does) and the first match, if
any; on a match the loop breaks immediately.  For an MX record the walker
pushes `(exchange, AAAA)` then `(exchange, A)` at index 0 — leaving
`(exchange, A)` first — and the candidate tested is the exchange
hostname; for A/AAAA records the candidate is the address; other record
types are skipped. -/
def processRecords (rs : RegexSearch) (items : List ScanItem) :
    List DnsRecord → List QItem × Option ScanItem
  | [] => ([], none)
  | .mx ex :: rest =>
    (match match_patterns rs items ex with
     | some e => ([(ex, QType.A), (ex, QType.AAAA)], some e)
     | none =>
       let pr := processRecords rs items rest
       (pr.1 ++ [(ex, QType.A), (ex, QType.AAAA)], pr.2))
  | .a ad :: rest =>
    (match match_patterns rs items ad with
     | some e => ([], some e)
     | none => processRecords rs items rest)
  | .aaaa ad :: rest =>
    (match match_patterns rs items ad with
     | some e => ([], some e)
     | none => processRecords rs items rest)
  | .other :: rest => processRecords rs items rest

/-- The `while queue:` loop of `_check_domain`, with explicit fuel (the
Python loop has no termination guarantee for an arbitrary resolver).
Returns the verdict and the log of queries actually issued, in order.  A
failed lookup is swallowed (`except Exception: pass`) and the walk
proceeds with the rest of the queue; a match inside the record loop
breaks out of both loops. -/
def walkFull (R : Resolver) (rs : RegexSearch) (items : List ScanItem) :
    Nat → List QItem → Option ScanItem × List QItem
  | 0, _ => (none, [])
  | _ + 1, [] => (none, [])
  | fuel + 1, (name, ty) :: rest =>
    match R name ty with
    | .error _ =>
      let r := walkFull R rs items fuel rest
      (r.1, (name, ty) :: r.2)
    | .ok recs =>
      match (processRecords rs items recs).2 with
      | some e => (some e, [(name, ty)])
      | none =>
        let r := walkFull R rs items fuel ((processRecords rs items recs).1 ++ rest)
        (r.1, (name, ty) :: r.2)

/-- `_check_domain` after the patterns list has been assembled: test the
seed domain directly against every rule first; only if nothing matches,
seed the queue with `(domain, MX)`, `(domain, A)`, `(domain, AAAA)` and
walk.  Returns the verdict and the log of DNS queries issued. -/
def checkFull (R : Resolver) (rs : RegexSearch) (fuel : Nat) (items : List ScanItem)
    (domain : Str) : Option ScanItem × List QItem :=
  match match_patterns rs items domain with
  | some e => (some e, [])
  | none => walkFull R rs items fuel [(domain, QType.MX), (domain, QType.A), (domain, QType.AAAA)]

/-- The verdict of `_check_domain`. -/
def check_domain (R : Resolver) (rs : RegexSearch) (fuel : Nat) (items : List ScanItem)
    (domain : Str) : Option ScanItem :=
  (checkFull R rs fuel items domain).1

/-- `_check_domain(domain, pattern)` with a pattern override, as used by
`TESTPAT` and by cache invalidation: the patterns list is `[pattern]`. -/
def check_domain_override (R : Resolver) (rs : RegexSearch) (fuel : Nat) (p : Pattern)
    (domain : Str) : Option ScanItem :=
  check_domain R rs fuel [.pat p] domain

/-- `_check_domain(domain)` without an override: the patterns list is the
rows fetched by `database.list_all(order_by="active DESC, id")`, which
are `database.MxblEntry` instances. -/
def check_domain_db (R : Resolver) (rs : RegexSearch) (fuel : Nat)
    (dbRows : List DbMxblEntry) (domain : Str) : Option ScanItem :=
  check_domain R rs fuel (dbRows.map .dbEntry) domain

/-- `MalachiteServer.cache_evict_by_pattern`: for every cached clean
domain, re-run `_check_domain(domain, pattern)` against just the given
pattern and delete the cache entry if it now matches.  The cache is
modelled by its key list. -/
def cache_evict_by_pattern (R : Resolver) (rs : RegexSearch) (fuel : Nat)
    (cleanmails : List Str) (pattern : Pattern) : List Str :=
  cleanmails.filter fun domain =>
    (check_domain_override R rs fuel pattern domain).isNone

/-- A resolver that never raises: a failed leg is replaced by a
successful answer with no records. -/
def errToEmpty (R : Resolver) : Resolver := fun n t =>
  match R n t with
  | .ok recs => .ok recs
  | .error _ => .ok []

/-- The MX exchange hostnames of an answer, in answer order. -/
def mxExchanges (recs : List DnsRecord) : List Str :=
  recs.filterMap fun r =>
    match r with
    | .mx ex => some ex
    | _ => none

/-- A resolver for which every lookup fails. -/
def R0 : Resolver := fun _ _ => .error ()

/-! ## Helper lemmas -/

theorem splitSep_ne_nil (sep : Char) (s : Str) : splitSep sep s ≠ [] := by
  cases s with
  | nil => simp [splitSep]
  | cons c t =>
    rw [splitSep]
    split
    · simp
    · split <;> simp

theorem splitSep_chars (sep : Char) :
    ∀ (s : Str) (c : Char), c ∈ s → c = sep ∨ ∃ g ∈ splitSep sep s, c ∈ g := by
  intro s
  induction s with
  | nil => intro c hc; simp at hc
  | cons d t ih =>
    intro c hc
    rw [List.mem_cons] at hc
    rw [splitSep]
    rcases hc with hc | hc
    · by_cases hd : (d == sep) = true
      · left; exact hc.trans (eq_of_beq hd)
      · right
        rw [if_neg hd]
        rcases hg : splitSep sep t with _ | ⟨g, gs⟩
        · exact absurd hg (splitSep_ne_nil sep t)
        · exact ⟨d :: g, by simp, by simp [hc]⟩
    · rcases ih c hc with h | ⟨g, hg, hcg⟩
      · left; exact h
      · right
        by_cases hd : (d == sep) = true
        · rw [if_pos hd]
          exact ⟨g, by simp [hg], hcg⟩
        · rw [if_neg hd]
          rcases hgs : splitSep sep t with _ | ⟨g0, gs⟩
          · exact absurd hgs (splitSep_ne_nil sep t)
          · rw [hgs] at hg
            rcases List.mem_cons.mp hg with rfl | hmem
            · exact ⟨d :: g, by simp, by simp [hcg]⟩
            · exact ⟨g, by simp [hmem], hcg⟩

theorem splitSep_one (sep : Char) :
    ∀ {s g : Str}, splitSep sep s = [g] → s = g := by
  intro s
  induction s with
  | nil => intro g h; rw [splitSep] at h; simp_all
  | cons c t ih =>
    intro g h
    rw [splitSep] at h
    split at h
    · injection h with h1 h2
      exact absurd h2 (splitSep_ne_nil sep t)
    · split at h
      · next g0 gs hgs =>
        injection h with h1 h2
        subst h2
        rw [← h1]
        rw [ih hgs]
      · next hgs => exact absurd hgs (splitSep_ne_nil sep t)

theorem splitSep_two (sep : Char) :
    ∀ {s a b : Str}, splitSep sep s = [a, b] → s = a ++ sep :: b := by
  intro s
  induction s with
  | nil => intro a b h; rw [splitSep] at h; simp at h
  | cons c t ih =>
    intro a b h
    rw [splitSep] at h
    split at h
    · next hc =>
      injection h with h1 h2
      have : t = b := splitSep_one sep h2
      subst this
      rw [← h1]
      simp [eq_of_beq hc]
    · split at h
      · next g0 gs hgs =>
        injection h with h1 h2
        rw [h2] at hgs
        have := ih hgs
        subst this
        rw [← h1]
        simp
      · next hgs => exact absurd hgs (splitSep_ne_nil sep t)

theorem splitSep_head (sep : Char) :
    ∀ {s g : Str} {gs : List Str}, splitSep sep s = g :: gs →
      (gs = [] ∧ s = g) ∨ ∃ t : Str, s = g ++ sep :: t := by
  intro s
  induction s with
  | nil =>
    intro g gs h
    rw [splitSep] at h
    injection h with h1 h2
    exact Or.inl ⟨h2.symm, h1⟩
  | cons c t ih =>
    intro g gs h
    rw [splitSep] at h
    split at h
    · next hc =>
      injection h with h1 h2
      subst h1
      exact Or.inr ⟨t, by simp [eq_of_beq hc]⟩
    · split at h
      · next g0 gs0 hgs =>
        injection h with h1 h2
        subst h2
        rcases ih hgs with ⟨hnil, rfl⟩ | ⟨u, rfl⟩
        · exact Or.inl ⟨hnil, by rw [← h1]⟩
        · exact Or.inr ⟨u, by rw [← h1]; simp⟩
      · next hgs => exact absurd hgs (splitSep_ne_nil sep t)

theorem match_patterns_db_none (rs : RegexSearch) :
    ∀ (rows : List DbMxblEntry) (s : Str),
      match_patterns rs (rows.map ScanItem.dbEntry) s = none := by
  intro rows
  induction rows with
  | nil => intro s; rfl
  | cons r rest ih => intro s; simpa [match_patterns] using ih s

theorem processRecords_none {rs : RegexSearch} {items : List ScanItem}
    (h : ∀ s : Str, match_patterns rs items s = none) :
    ∀ recs : List DnsRecord, (processRecords rs items recs).2 = none := by
  intro recs
  induction recs with
  | nil => rfl
  | cons r rest ih =>
    cases r with
    | mx ex => simp [processRecords, h ex, ih]
    | a ad => simp [processRecords, h ad, ih]
    | aaaa ad => simp [processRecords, h ad, ih]
    | other => simpa [processRecords] using ih

theorem walkFull_none {R : Resolver} {rs : RegexSearch} {items : List ScanItem}
    (h : ∀ s : Str, match_patterns rs items s = none) :
    ∀ (fuel : Nat) (queue : List QItem), (walkFull R rs items fuel queue).1 = none := by
  intro fuel
  induction fuel with
  | zero => intro queue; rfl
  | succ n ih =>
    intro queue
    cases queue with
    | nil => rfl
    | cons it rest =>
      obtain ⟨name, ty⟩ := it
      cases hR : R name ty with
      | error e =>
        simp only [walkFull, hR]
        exact ih rest
      | ok recs =>
        simp only [walkFull, hR, processRecords_none h recs]
        exact ih ((processRecords rs items recs).1 ++ rest)

theorem walkFull_found_append (R : Resolver) (rs : RegexSearch) (items : List ScanItem) :
    ∀ (fuel : Nat) (q ys : List QItem) (e : ScanItem),
      (walkFull R rs items fuel q).1 = some e →
      (walkFull R rs items fuel (q ++ ys)).1 = some e := by
  intro fuel
  induction fuel with
  | zero => intro q ys e h; simp [walkFull] at h
  | succ n ih =>
    intro q ys e h
    cases q with
    | nil => simp [walkFull] at h
    | cons it rest =>
      obtain ⟨name, ty⟩ := it
      rw [List.cons_append]
      cases hR : R name ty with
      | error u =>
        simp only [walkFull, hR] at h ⊢
        exact ih rest ys e h
      | ok recs =>
        cases hm : (processRecords rs items recs).2 with
        | some e0 =>
          simp only [walkFull, hR, hm] at h ⊢
          exact h
        | none =>
          simp only [walkFull, hR, hm] at h ⊢
          rw [← List.append_assoc]
          exact ih ((processRecords rs items recs).1 ++ rest) ys e h

theorem mxExchanges_mx (ex : Str) (rest : List DnsRecord) :
    mxExchanges (.mx ex :: rest) = ex :: mxExchanges rest := by
  simp [mxExchanges]

theorem processRecords_queue (rs : RegexSearch) (items : List ScanItem) :
    ∀ recs : List DnsRecord, (processRecords rs items recs).2 = none →
      (processRecords rs items recs).1
        = ((mxExchanges recs).reverse).flatMap
            (fun ex => [(ex, QType.A), (ex, QType.AAAA)]) := by
  intro recs
  induction recs with
  | nil => intro _; simp [processRecords, mxExchanges]
  | cons r rest ih =>
    intro h
    cases r with
    | mx ex =>
      cases hm : match_patterns rs items ex with
      | some e0 => simp [processRecords, hm] at h
      | none =>
        simp only [processRecords, hm] at h ⊢
        rw [mxExchanges_mx, List.reverse_cons, List.flatMap_append, ih h]
        simp
    | a ad =>
      cases hm : match_patterns rs items ad with
      | some e0 => simp [processRecords, hm] at h
      | none =>
        simp only [processRecords, hm] at h ⊢
        rw [ih h]
        simp [mxExchanges]
    | aaaa ad =>
      cases hm : match_patterns rs items ad with
      | some e0 => simp [processRecords, hm] at h
      | none =>
        simp only [processRecords, hm] at h ⊢
        rw [ih h]
        simp [mxExchanges]
    | other =>
      simp only [processRecords] at h ⊢
      rw [ih h]
      simp [mxExchanges]

theorem walkFull_step_ok (R : Resolver) (rs : RegexSearch) (items : List ScanItem)
    (fuel : Nat) (name : Str) (ty : QType) (rest : List QItem) (recs : List DnsRecord)
    (hR : R name ty = .ok recs) (hnone : (processRecords rs items recs).2 = none) :
    walkFull R rs items (fuel + 1) ((name, ty) :: rest)
      = ((walkFull R rs items fuel ((processRecords rs items recs).1 ++ rest)).1,
         (name, ty) :: (walkFull R rs items fuel ((processRecords rs items recs).1 ++ rest)).2) := by
  simp only [walkFull, hR, hnone]

theorem parseOctet_facts {g : Str} {n : Nat} (h : parseOctet g = some n) :
    g ≠ [] ∧ ∀ c ∈ g, c.isDigit = true := by
  unfold parseOctet at h
  split_ifs at h with h1 h2 h3 h4 h5
  refine ⟨?_, ?_⟩
  · intro hnil
    rw [hnil] at h1
    simp at h1
  · intro c hc
    exact List.all_eq_true.mp h2 c hc

theorem parseIPv4_chars {s : Str} {a : Nat} (h : parseIPv4 s = some a) :
    ∀ c ∈ s, c.isDigit = true ∨ c = '.' := by
  intro c hc
  unfold parseIPv4 at h
  split at h
  · next o1 o2 o3 o4 hsp =>
    split at h
    · next x y z w h1 h2 h3 h4 =>
      rcases splitSep_chars '.' s c hc with hdot | ⟨g, hg, hcg⟩
      · right; exact hdot
      · left
        rw [hsp] at hg
        simp only [List.mem_cons, List.mem_singleton] at hg
        rcases hg with rfl | rfl | rfl | rfl | hfalse
        · exact (parseOctet_facts h1).2 c hcg
        · exact (parseOctet_facts h2).2 c hcg
        · exact (parseOctet_facts h3).2 c hcg
        · exact (parseOctet_facts h4).2 c hcg
        · simp at hfalse
    · exact absurd h (by simp)
  · exact absurd h (by simp)

theorem parseIPv4_head {s : Str} {a : Nat} (h : parseIPv4 s = some a) :
    ∃ (c : Char) (t : Str), s = c :: t ∧ c.isDigit = true := by
  unfold parseIPv4 at h
  split at h
  · next o1 o2 o3 o4 hsp =>
    split at h
    · next x y z w h1 h2 h3 h4 =>
      obtain ⟨hne, hdig⟩ := parseOctet_facts h1
      rcases o1 with _ | ⟨c, t0⟩
      · exact absurd rfl hne
      · rcases splitSep_head '.' hsp with ⟨_, rfl⟩ | ⟨t, rfl⟩
        · exact ⟨c, t0, rfl, hdig c (by simp)⟩
        · exact ⟨c, t0 ++ '.' :: t, by simp, hdig c (by simp)⟩
    · exact absurd h (by simp)
  · exact absurd h (by simp)

theorem parseNetV4_head {s : Str} {net : IpNet} (h : parseNetV4 s = some net) :
    ∃ (c : Char) (t : Str), s = c :: t ∧ c.isDigit = true := by
  unfold parseNetV4 at h
  split at h
  · next addr hsp =>
    rw [Option.map_eq_some'] at h
    obtain ⟨a, ha, _⟩ := h
    obtain ⟨c, t, hct, hdig⟩ := parseIPv4_head ha
    exact ⟨c, t, by rw [splitSep_one '/' hsp, hct], hdig⟩
  · next addr plen hsp =>
    split at h
    · next a p ha hp =>
      obtain ⟨c, t, hct, hdig⟩ := parseIPv4_head ha
      refine ⟨c, t ++ '/' :: plen, ?_, hdig⟩
      rw [splitSep_two '/' hsp, hct]
      simp
    · exact absurd h (by simp)
  · exact absurd h (by simp)

theorem startswith_cons (c x : Char) (t : Str) :
    startswith (c :: t) [x] = (x == c) := by
  simp [startswith, List.isPrefixOf]

theorem startswith_wrap (c : Char) (mid : Str) :
    startswith (c :: mid ++ [c]) [c] = true := by
  simp [startswith, List.isPrefixOf]

theorem endswith_wrap (c : Char) (mid : Str) :
    endswith (c :: mid ++ [c]) [c] = true := by
  simp [endswith, List.isPrefixOf]

theorem wrap_strip (c : Char) (mid : Str) :
    removeSuf (removePre (c :: mid ++ [c]) [c]) [c] = mid := by
  rw [removePre, if_pos (startswith_wrap c mid)]
  simp only [List.length_cons, List.length_nil, List.drop_succ_cons, List.drop_zero]
  rw [removeSuf, removePre]
  rw [if_pos (by simp [startswith, List.isPrefixOf])]
  simp

theorem parse_glob_wrapped (mid : Str) :
    parse_pattern ('%' :: mid ++ ['%']) = .ok (.glob mid) := by
  unfold parse_pattern
  rw [startswith_wrap, endswith_wrap, wrap_strip]
  simp

theorem startswith_wrap_ne (c d x : Char) (mid : Str) (hx : (x == c) = false) :
    startswith (c :: mid ++ [d]) [x] = false := by
  rw [List.cons_append, startswith_cons, hx]

theorem parse_regex_wrapped (mid : Str) :
    parse_pattern ('/' :: mid ++ ['/']) = .ok (.regex mid) := by
  unfold parse_pattern
  rw [startswith_wrap_ne '/' '/' '%' mid (by decide), Bool.false_and]
  rw [startswith_wrap, endswith_wrap, wrap_strip]
  simp

theorem parse_pattern_conds {pat : Str}
    (h1 : (startswith pat ['%'] && endswith pat ['%']) = false)
    (h2 : (startswith pat ['/'] && endswith pat ['/']) = false) :
    parse_pattern pat
      = (if pat.contains '/' then
           match parseNetV4 pat with
           | some net => .ok (.cidr pat net)
           | none => .error .valueError
         else
           match parseIPv4 pat with
           | some a => .ok (.ipaddr pat a)
           | none => .ok (.domain pat)) := by
  unfold parse_pattern
  rw [h1, h2]
  simp

theorem isDigit_ne_pct {c : Char} (h : c.isDigit = true) : ('%' == c) = false := by
  rw [beq_eq_false_iff_ne]
  intro he
  rw [← he] at h
  exact absurd h (by decide)

theorem isDigit_ne_slash {c : Char} (h : c.isDigit = true) : ('/' == c) = false := by
  rw [beq_eq_false_iff_ne]
  intro he
  rw [← he] at h
  exact absurd h (by decide)

theorem parse_pattern_head_digit {pat : Str} {c : Char} {t : Str}
    (hshape : pat = c :: t) (hdig : c.isDigit = true) :
    parse_pattern pat
      = (if pat.contains '/' then
           match parseNetV4 pat with
           | some net => .ok (.cidr pat net)
           | none => .error .valueError
         else
           match parseIPv4 pat with
           | some a => .ok (.ipaddr pat a)
           | none => .ok (.domain pat)) := by
  apply parse_pattern_conds
  · rw [hshape, startswith_cons, isDigit_ne_pct hdig, Bool.false_and]
  · rw [hshape, startswith_cons, isDigit_ne_slash hdig, Bool.false_and]

theorem ipv4_contains_slash {s : Str} {a : Nat} (h : parseIPv4 s = some a) :
    s.contains '/' = false := by
  have hnm : '/' ∉ s := by
    intro hm
    rcases parseIPv4_chars h '/' hm with hd | hd
    · exact absurd hd (by decide)
    · exact absurd hd (by decide)
  simpa using hnm

theorem walkFull_errToEmpty (R : Resolver) (rs : RegexSearch) (items : List ScanItem) :
    ∀ (fuel : Nat) (queue : List QItem),
      walkFull R rs items fuel queue = walkFull (errToEmpty R) rs items fuel queue := by
  intro fuel
  induction fuel with
  | zero => intro queue; rfl
  | succ n ih =>
    intro queue
    cases queue with
    | nil => rfl
    | cons it rest =>
      obtain ⟨name, ty⟩ := it
      cases hR : R name ty with
      | error u =>
        have hE : errToEmpty R name ty = .ok [] := by simp [errToEmpty, hR]
        simp only [walkFull, hR, hE]
        have hP : processRecords rs items ([] : List DnsRecord) = ([], none) := rfl
        rw [hP]
        simp only [List.nil_append]
        rw [ih rest]
      | ok recs =>
        have hE : errToEmpty R name ty = .ok recs := by simp [errToEmpty, hR]
        simp only [walkFull, hR, hE]
        cases hm : (processRecords rs items recs).2 with
        | some e => rfl
        | none => rw [ih ((processRecords rs items recs).1 ++ rest)]

/-! ## Claims -/

/-- C1: for every domain and every rule list, `_check_domain` tests the
seed domain itself against every rule (first match wins, via
`match_patterns`) before any DNS lookup; when the seed domain matches a
rule directly, the verdict is that rule and the DNS query log is empty —
the walker is never invoked. -/
theorem C1_direct_match_short_circuits (R : Resolver) (rs : RegexSearch) (fuel : Nat)
    (items : List ScanItem) (domain : Str) (e : ScanItem)
    (h : match_patterns rs items domain = some e) :
    checkFull R rs fuel items domain = (some e, []) := by
  simp only [checkFull, h]

/-- Witness for C1 at a concrete rule list and domain. -/
theorem C1_direct_match_short_circuits_witness :
    match_patterns simpleSearch [ScanItem.pat (Pattern.domain "seed.test".toList)]
        "seed.test".toList = some (ScanItem.pat (Pattern.domain "seed.test".toList)) ∧
    checkFull R0 simpleSearch 7 [ScanItem.pat (Pattern.domain "seed.test".toList)]
        "seed.test".toList = (some (ScanItem.pat (Pattern.domain "seed.test".toList)), []) :=
  ⟨by decide, C1_direct_match_short_circuits R0 simpleSearch 7
    [ScanItem.pat (Pattern.domain "seed.test".toList)] "seed.test".toList
    (ScanItem.pat (Pattern.domain "seed.test".toList)) (by decide)⟩

/-- C3: `cache_evict_by_pattern` (run by the ADD and EDITPATTERN
handlers) re-runs the full resolution+match of each cached clean domain
against just the new or edited pattern: a domain the pattern now matches
is evicted from the cache, and a domain it does not match (directly or
via its resolution chain) stays cached. -/
theorem C3_cache_invalidation_targeted (R : Resolver) (rs : RegexSearch) (fuel : Nat)
    (cache : List Str) (p : Pattern) (d : Str) (hmem : d ∈ cache) :
    (check_domain_override R rs fuel p d ≠ none →
      d ∉ cache_evict_by_pattern R rs fuel cache p) ∧
    (check_domain_override R rs fuel p d = none →
      d ∈ cache_evict_by_pattern R rs fuel cache p) := by
  constructor
  · intro hm hin
    rw [cache_evict_by_pattern, List.mem_filter] at hin
    exact hm (Option.isNone_iff_eq_none.mp hin.2)
  · intro hn
    rw [cache_evict_by_pattern, List.mem_filter]
    exact ⟨hmem, Option.isNone_iff_eq_none.mpr hn⟩

/-- Witness for C3: a matching pattern evicts `d.test`; a non-matching
pattern leaves it cached. -/
theorem C3_cache_invalidation_targeted_witness :
    ("d.test".toList ∈ ["d.test".toList] ∧
      check_domain_override R0 simpleSearch 5 (Pattern.domain "d.test".toList)
        "d.test".toList ≠ none ∧
      "d.test".toList ∉ cache_evict_by_pattern R0 simpleSearch 5 ["d.test".toList]
        (Pattern.domain "d.test".toList)) ∧
    (check_domain_override R0 simpleSearch 5 (Pattern.domain "other.test".toList)
        "d.test".toList = none ∧
      "d.test".toList ∈ cache_evict_by_pattern R0 simpleSearch 5 ["d.test".toList]
        (Pattern.domain "other.test".toList)) :=
  ⟨⟨by decide, by decide,
    (C3_cache_invalidation_targeted R0 simpleSearch 5 ["d.test".toList]
      (Pattern.domain "d.test".toList) "d.test".toList (by decide)).1 (by decide)⟩,
   by decide,
   (C3_cache_invalidation_targeted R0 simpleSearch 5 ["d.test".toList]
      (Pattern.domain "other.test".toList) "d.test".toList (by decide)).2 (by decide)⟩

/-- C9: the rows `database.list_all` hands to `_check_domain` on the
no-override path are `database.MxblEntry` values, a class distinct from
`util.MxblEntry`; `match_patterns` recognizes only `util.MxblEntry` and
`Pattern` instances and silently skips everything else, so for every list
of database-layer rows and every candidate it returns `None`, and the
whole check also returns `None` — no persisted rule ever matches on this
path. -/
theorem C9_database_rows_never_match (rs : RegexSearch) (rows : List DbMxblEntry)
    (candidate : Str) :
    match_patterns rs (rows.map ScanItem.dbEntry) candidate = none ∧
    ∀ (R : Resolver) (fuel : Nat), check_domain_db R rs fuel rows candidate = none := by
  refine ⟨match_patterns_db_none rs rows candidate, ?_⟩
  intro R fuel
  simp only [check_domain_db, check_domain, checkFull,
    match_patterns_db_none rs rows candidate]
  exact walkFull_none (match_patterns_db_none rs rows) fuel _

/-- C4 counterexample: on text containing a `/` whose CIDR parse fails,
`parse_pattern` raises `ValueError("invalid pattern")` — it does not fall
back to a Domain pattern as the claim states. -/
theorem C4_cidr_failure_raises :
    parse_pattern "a/b".toList = .error .valueError ∧
    parse_pattern "a/b".toList ≠ .ok (.domain "a/b".toList) := by
  constructor
  · decide
  · decide

/-- C4 (amended): parse classifies operator text in this exhaustive
order: text wrapped in `%...%` yields a Glob over the inner text; text
wrapped in `/.../` yields a Regex over the inner text; other text
containing a `/` is parsed as CIDR, raising `ValueError` (not falling
back to Domain) if CIDR parsing fails; all remaining text is parsed as an
IP literal, falling back to Domain if that fails. -/
theorem C4_parse_classification :
    (∀ mid : Str, parse_pattern ('%' :: mid ++ ['%']) = .ok (.glob mid)) ∧
    (∀ mid : Str, parse_pattern ('/' :: mid ++ ['/']) = .ok (.regex mid)) ∧
    (∀ pat : Str, (startswith pat ['%'] && endswith pat ['%']) = false →
      (startswith pat ['/'] && endswith pat ['/']) = false →
      pat.contains '/' = true →
      ((∀ net : IpNet, parseNetV4 pat = some net →
          parse_pattern pat = .ok (.cidr pat net)) ∧
       (parseNetV4 pat = none → parse_pattern pat = .error .valueError))) ∧
    (∀ pat : Str, (startswith pat ['%'] && endswith pat ['%']) = false →
      (startswith pat ['/'] && endswith pat ['/']) = false →
      pat.contains '/' = false →
      ((∀ a : Nat, parseIPv4 pat = some a →
          parse_pattern pat = .ok (.ipaddr pat a)) ∧
       (parseIPv4 pat = none → parse_pattern pat = .ok (.domain pat)))) := by
  refine ⟨parse_glob_wrapped, parse_regex_wrapped, ?_, ?_⟩
  · intro pat h1 h2 h3
    constructor
    · intro net hnet
      rw [parse_pattern_conds h1 h2, h3, if_pos rfl, hnet]
    · intro hnet
      rw [parse_pattern_conds h1 h2, h3, if_pos rfl, hnet]
  · intro pat h1 h2 h3
    constructor
    · intro a hip
      rw [parse_pattern_conds h1 h2, h3]
      simp [hip]
    · intro hip
      rw [parse_pattern_conds h1 h2, h3]
      simp [hip]

/-- Witness for C4: one concrete input per classification branch. -/
theorem C4_parse_classification_witness :
    parse_pattern "%*.foo%".toList = .ok (.glob "*.foo".toList) ∧
    parse_pattern "/abc/".toList = .ok (.regex "abc".toList) ∧
    parse_pattern "1.2.3.0/24".toList = .ok (.cidr "1.2.3.0/24".toList ⟨16909056, 24⟩) ∧
    parse_pattern "x/y".toList = .error .valueError ∧
    parse_pattern "1.2.3.4".toList = .ok (.ipaddr "1.2.3.4".toList 16909060) ∧
    parse_pattern "foo.test".toList = .ok (.domain "foo.test".toList) := by
  refine ⟨?_, ?_, ?_, ?_, ?_, ?_⟩
  · exact C4_parse_classification.1 "*.foo".toList
  · exact C4_parse_classification.2.1 "abc".toList
  · exact (C4_parse_classification.2.2.1 "1.2.3.0/24".toList (by decide) (by decide)
      (by decide)).1 ⟨16909056, 24⟩ (by decide)
  · exact (C4_parse_classification.2.2.1 "x/y".toList (by decide) (by decide)
      (by decide)).2 (by decide)
  · exact (C4_parse_classification.2.2.2 "1.2.3.4".toList (by decide) (by decide)
      (by decide)).1 16909060 (by decide)
  · exact (C4_parse_classification.2.2.2 "foo.test".toList (by decide) (by decide)
      (by decide)).2 (by decide)

/-- C5 counterexample: the round trip fails for Domain patterns.
`Domain`'s `_delim` is a single quote, so `render (Domain "a")` is
`'a'` (with quotes), which `parse_pattern` classifies as a Domain over
the *quoted* text: the kind survives but the matching behaviour differs —
the original matches candidate `a`, the re-parsed pattern does not. -/
theorem C5_domain_roundtrip_fails :
    parse_pattern (render (.domain "a".toList)) = .ok (.domain (squote :: 'a' :: [squote])) ∧
    matchesE simpleSearch (.domain (squote :: 'a' :: [squote])) "a".toList = .ok false ∧
    matchesE simpleSearch (.domain "a".toList) "a".toList = .ok true := by
  refine ⟨?_, ?_, ?_⟩ <;> decide

/-- C5 (amended): `parse(render(p))` yields an equal pattern — same kind,
same matching behaviour — for Glob, Regex and IpAddr patterns, and for
Cidr patterns whose raw text contains a `/` (as all parse-produced Cidrs
do); for Domain patterns the rendered form keeps its quote delimiters
when re-parsed, so the round trip changes matching behaviour. -/
theorem C5_render_roundtrip :
    (∀ raw : Str, parse_pattern (render (.glob raw)) = .ok (.glob raw)) ∧
    (∀ raw : Str, parse_pattern (render (.regex raw)) = .ok (.regex raw)) ∧
    (∀ (raw : Str) (a : Nat), parseIPv4 raw = some a →
      parse_pattern (render (.ipaddr raw a)) = .ok (.ipaddr raw a)) ∧
    (∀ (raw : Str) (net : IpNet), parseNetV4 raw = some net → raw.contains '/' = true →
      parse_pattern (render (.cidr raw net)) = .ok (.cidr raw net)) := by
  refine ⟨?_, ?_, ?_, ?_⟩
  · intro raw
    rw [render]
    exact parse_glob_wrapped raw
  · intro raw
    rw [render]
    exact parse_regex_wrapped raw
  · intro raw a hip
    obtain ⟨c, t, hshape, hdig⟩ := parseIPv4_head hip
    rw [render, parse_pattern_head_digit hshape hdig, ipv4_contains_slash hip]
    simp [hip]
  · intro raw net hnet hsl
    obtain ⟨c, t, hshape, hdig⟩ := parseNetV4_head hnet
    rw [render, parse_pattern_head_digit hshape hdig, hsl, if_pos rfl, hnet]

/-- Witness for C5 at one concrete pattern of each round-tripping kind. -/
theorem C5_render_roundtrip_witness :
    parse_pattern (render (.glob "*.foo".toList)) = .ok (.glob "*.foo".toList) ∧
    parse_pattern (render (.regex "abc".toList)) = .ok (.regex "abc".toList) ∧
    parse_pattern (render (.ipaddr "1.2.3.4".toList 16909060))
      = .ok (.ipaddr "1.2.3.4".toList 16909060) ∧
    parse_pattern (render (.cidr "1.2.3.0/24".toList ⟨16909056, 24⟩))
      = .ok (.cidr "1.2.3.0/24".toList ⟨16909056, 24⟩) :=
  ⟨C5_render_roundtrip.1 "*.foo".toList,
   C5_render_roundtrip.2.1 "abc".toList,
   C5_render_roundtrip.2.2.1 "1.2.3.4".toList 16909060 (by decide),
   C5_render_roundtrip.2.2.2 "1.2.3.0/24".toList ⟨16909056, 24⟩ (by decide) (by decide)⟩

/-- C6: a matching attempt never raises: every `__eq__` returns a value;
a candidate that fails to parse as an IP address is a non-match (never an
error) for Cidr and IpAddr patterns; and inside the rule scan a
candidate-parse failure only makes that one rule a non-match — the scan
continues with the remaining rules. -/
theorem C6_matching_never_raises :
    (∀ (rs : RegexSearch) (p : Pattern) (c : Str), ∃ b : Bool, matchesE rs p c = .ok b) ∧
    (∀ (rs : RegexSearch) (raw : Str) (net : IpNet) (c : Str), parseIPv4 c = none →
      matchesE rs (.cidr raw net) c = .ok false) ∧
    (∀ (rs : RegexSearch) (raw : Str) (addr : Nat) (c : Str), parseIPv4 c = none →
      matchesE rs (.ipaddr raw addr) c = .ok false) ∧
    (∀ (rs : RegexSearch) (raw : Str) (net : IpNet) (items : List ScanItem) (c : Str),
      parseIPv4 c = none →
      match_patterns rs (.pat (.cidr raw net) :: items) c = match_patterns rs items c) := by
  refine ⟨?_, ?_, ?_, ?_⟩
  · intro rs p c
    cases p with
    | domain raw => exact ⟨_, rfl⟩
    | glob raw => exact ⟨_, rfl⟩
    | regex raw => exact ⟨_, rfl⟩
    | cidr raw net =>
      cases hip : ip_address c with
      | ok a => exact ⟨netContains net a, by simp [matchesE, hip]⟩
      | error u => exact ⟨false, by simp [matchesE, hip]⟩
    | ipaddr raw addr =>
      cases hip : ip_address c with
      | ok a => exact ⟨addr == a, by simp [matchesE, hip]⟩
      | error u => exact ⟨false, by simp [matchesE, hip]⟩
  · intro rs raw net c hip
    simp [matchesE, ip_address, hip]
  · intro rs raw addr c hip
    simp [matchesE, ip_address, hip]
  · intro rs raw net items c hip
    simp [match_patterns, matchesE, ip_address, hip]

/-- Witness for C6 at the malformed candidate `not-an-ip`. -/
theorem C6_matching_never_raises_witness :
    (∃ b : Bool, matchesE simpleSearch (.cidr "1.2.3.0/24".toList ⟨16909056, 24⟩)
      "not-an-ip".toList = .ok b) ∧
    matchesE simpleSearch (.cidr "1.2.3.0/24".toList ⟨16909056, 24⟩)
      "not-an-ip".toList = .ok false ∧
    matchesE simpleSearch (.ipaddr "1.2.3.4".toList 16909060) "not-an-ip".toList = .ok false ∧
    match_patterns simpleSearch
        [.pat (.cidr "1.2.3.0/24".toList ⟨16909056, 24⟩), .pat (.domain "not-an-ip".toList)]
        "not-an-ip".toList
      = match_patterns simpleSearch [.pat (.domain "not-an-ip".toList)] "not-an-ip".toList :=
  ⟨C6_matching_never_raises.1 simpleSearch _ _,
   C6_matching_never_raises.2.1 simpleSearch "1.2.3.0/24".toList ⟨16909056, 24⟩
     "not-an-ip".toList (by decide),
   C6_matching_never_raises.2.2.1 simpleSearch "1.2.3.4".toList 16909060
     "not-an-ip".toList (by decide),
   C6_matching_never_raises.2.2.2 simpleSearch "1.2.3.0/24".toList ⟨16909056, 24⟩
     [.pat (.domain "not-an-ip".toList)] "not-an-ip".toList (by decide)⟩

/-- C2: when an MX record with exchange `E` is processed and the record
loop does not break, the walker has pushed `(E, A)` then `(E, AAAA)` onto
the front of the queue (repeated `queue.insert(0, ...)`, so later MX
records of the same answer end up in front of earlier ones): the next
queue is exactly the MX-derived items followed by everything that was
already queued; the walk always dequeues from the front; and a verdict
reached from the front segment alone is the verdict of the whole queue —
previously queued items can never preempt the MX-derived candidates. -/
theorem C2_mx_front_insertion :
    (∀ (rs : RegexSearch) (items : List ScanItem) (recs : List DnsRecord),
      (processRecords rs items recs).2 = none →
      (processRecords rs items recs).1
        = ((mxExchanges recs).reverse).flatMap
            (fun ex => [(ex, QType.A), (ex, QType.AAAA)])) ∧
    (∀ (R : Resolver) (rs : RegexSearch) (items : List ScanItem) (fuel : Nat)
        (name : Str) (ty : QType) (rest : List QItem) (recs : List DnsRecord),
      R name ty = .ok recs →
      (processRecords rs items recs).2 = none →
      walkFull R rs items (fuel + 1) ((name, ty) :: rest)
        = ((walkFull R rs items fuel ((processRecords rs items recs).1 ++ rest)).1,
           (name, ty) ::
             (walkFull R rs items fuel ((processRecords rs items recs).1 ++ rest)).2)) ∧
    (∀ (R : Resolver) (rs : RegexSearch) (items : List ScanItem) (fuel : Nat)
        (q ys : List QItem) (e : ScanItem),
      (walkFull R rs items fuel q).1 = some e →
      (walkFull R rs items fuel (q ++ ys)).1 = some e) :=
  ⟨processRecords_queue, walkFull_step_ok, walkFull_found_append⟩

/-- Witness for C2: two MX records produce the four front items in order;
one walker step prepends them; a verdict found in the front segment
survives appending a previously queued tail. -/
theorem C2_mx_front_insertion_witness :
    ((processRecords simpleSearch [] [.mx "m1".toList, .mx "m2".toList]).2 = none ∧
     (processRecords simpleSearch [] [.mx "m1".toList, .mx "m2".toList]).1
       = ((mxExchanges [.mx "m1".toList, .mx "m2".toList]).reverse).flatMap
           (fun ex => [(ex, QType.A), (ex, QType.AAAA)])) ∧
    walkFull (fun _ _ => .ok [.mx "mx.test".toList]) simpleSearch [] (2 + 1)
        (("a.test".toList, QType.MX) :: [("z.test".toList, QType.A)])
      = ((walkFull (fun _ _ => .ok [.mx "mx.test".toList]) simpleSearch [] 2
            ((processRecords simpleSearch [] [.mx "mx.test".toList]).1
              ++ [("z.test".toList, QType.A)])).1,
         ("a.test".toList, QType.MX) ::
           (walkFull (fun _ _ => .ok [.mx "mx.test".toList]) simpleSearch [] 2
             ((processRecords simpleSearch [] [.mx "mx.test".toList]).1
               ++ [("z.test".toList, QType.A)])).2) ∧
    (walkFull (fun _ t => if t = QType.A then .ok [.a "1.2.3.4".toList] else .error ())
        simpleSearch [.pat (.ipaddr "1.2.3.4".toList 16909060)] 2
        [("m.test".toList, QType.A)]).1
      = some (.pat (.ipaddr "1.2.3.4".toList 16909060)) ∧
    (walkFull (fun _ t => if t = QType.A then .ok [.a "1.2.3.4".toList] else .error ())
        simpleSearch [.pat (.ipaddr "1.2.3.4".toList 16909060)] 2
        ([("m.test".toList, QType.A)] ++ [("zz.test".toList, QType.MX)])).1
      = some (.pat (.ipaddr "1.2.3.4".toList 16909060)) :=
  ⟨⟨by decide, C2_mx_front_insertion.1 simpleSearch [] [.mx "m1".toList, .mx "m2".toList]
      (by decide)⟩,
   C2_mx_front_insertion.2.1 (fun _ _ => .ok [.mx "mx.test".toList]) simpleSearch [] 2
     "a.test".toList QType.MX [("z.test".toList, QType.A)] [.mx "mx.test".toList]
     (by decide) (by decide),
   by decide,
   C2_mx_front_insertion.2.2
     (fun _ t => if t = QType.A then .ok [.a "1.2.3.4".toList] else .error ())
     simpleSearch [.pat (.ipaddr "1.2.3.4".toList 16909060)] 2
     [("m.test".toList, QType.A)] [("zz.test".toList, QType.MX)]
     (.pat (.ipaddr "1.2.3.4".toList 16909060)) (by decide)⟩

/-- C7 (code bug): with two persisted rules of identical pattern, one
active (id 2) and one warn-only (id 1), fetched in the order
`active DESC, id`, `_check_domain` returns no match at all for a domain
both patterns match: the database rows are skipped by `match_patterns`
(see the `database.MxblEntry` / `util.MxblEntry` class split), so the
active rule is not returned even though its pattern — compiled by
`make_pattern` as `util.MxblEntry.from_record` would — matches the
candidate. -/
theorem C7_active_tiebreak_broken :
    check_domain_db R0 simpleSearch 10
        [⟨2, "x.test".toList, .Domain, [], true, 0, [], 0, none⟩,
         ⟨1, "x.test".toList, .Domain, [], false, 0, [], 0, none⟩]
        "x.test".toList = none ∧
    make_pattern "x.test".toList .Domain = .ok (.domain "x.test".toList) ∧
    matchesE simpleSearch (.domain "x.test".toList) "x.test".toList = .ok true := by
  refine ⟨?_, ?_, ?_⟩ <;> decide

/-- C8: a failed DNS lookup is swallowed inside the walker: the failing
leg contributes no candidates and the walk proceeds with the rest of the
queue; a walk (and a whole check) over a resolver with failures is
indistinguishable from one over a resolver whose failed legs return
empty answers, and the verdict type has no error case — no lookup
failure reaches the caller of the check. -/
theorem C8_lookup_failure_swallowed :
    (∀ (R : Resolver) (rs : RegexSearch) (items : List ScanItem) (fuel : Nat)
        (name : Str) (ty : QType) (rest : List QItem),
      R name ty = .error () →
      walkFull R rs items (fuel + 1) ((name, ty) :: rest)
        = ((walkFull R rs items fuel rest).1,
           (name, ty) :: (walkFull R rs items fuel rest).2)) ∧
    (∀ (R : Resolver) (rs : RegexSearch) (items : List ScanItem) (fuel : Nat)
        (queue : List QItem),
      walkFull R rs items fuel queue = walkFull (errToEmpty R) rs items fuel queue) ∧
    (∀ (R : Resolver) (rs : RegexSearch) (fuel : Nat) (items : List ScanItem)
        (domain : Str),
      checkFull R rs fuel items domain = checkFull (errToEmpty R) rs fuel items domain) := by
  refine ⟨?_, walkFull_errToEmpty, ?_⟩
  · intro R rs items fuel name ty rest h
    simp only [walkFull, h]
  · intro R rs fuel items domain
    cases hm : match_patterns rs items domain with
    | some e => simp only [checkFull, hm]
    | none =>
      simp only [checkFull, hm]
      exact walkFull_errToEmpty R rs items fuel _

/-- Witness for C8: a concrete failing leg is skipped, and a check over
the all-failing resolver equals the check over its empty-answer twin. -/
theorem C8_lookup_failure_swallowed_witness :
    walkFull R0 simpleSearch [] (2 + 1)
        (("a.test".toList, QType.MX) :: [("b.test".toList, QType.A)])
      = ((walkFull R0 simpleSearch [] 2 [("b.test".toList, QType.A)]).1,
         ("a.test".toList, QType.MX) ::
           (walkFull R0 simpleSearch [] 2 [("b.test".toList, QType.A)]).2) ∧
    checkFull R0 simpleSearch 5 [] "c.test".toList
      = checkFull (errToEmpty R0) simpleSearch 5 [] "c.test".toList :=
  ⟨C8_lookup_failure_swallowed.1 R0 simpleSearch [] 2 "a.test".toList QType.MX
     [("b.test".toList, QType.A)] (by decide),
   C8_lookup_failure_swallowed.2.2 R0 simpleSearch 5 [] "c.test".toList⟩

/-- C10: a Glob pattern matches a candidate iff its `fnmatch`-translated,
end-anchored regex matches some suffix of the candidate (the compiled
pattern is applied with unanchored, case-insensitive `search`); in
particular the glob `example.com`, with no leading wildcard, matches the
candidate `badexample.com`. -/
theorem C10_glob_search_matches_suffix :
    (∀ g c : Str, globSearch g c = true ↔
      ∃ s : Str, s <:+ c ∧ tokMatch (globTranslate g) s = true) ∧
    globSearch "example.com".toList "badexample.com".toList = true := by
  constructor
  · intro g c
    unfold globSearch
    rw [List.any_eq_true]
    constructor
    · rintro ⟨i, hi, hm⟩
      exact ⟨c.drop i, List.drop_suffix i c, hm⟩
    · rintro ⟨s, hs, hm⟩
      obtain ⟨t, rfl⟩ := hs
      refine ⟨t.length, ?_, ?_⟩
      · rw [List.mem_range, List.length_append]
        omega
      · rw [List.drop_left]
        exact hm
  · decide

end Malachite
